import Mathlib

/-!
# Verification of the async-jest-with-mongoose test harness

Shallow embedding of the repository's three source files:

* `db.test.js` — the validation harness (`testModel`, the per-record
  `testDoc.save` callback, the `findOne` `callback`, and
  `setTimeoutToCloseConnection`);
* `db.js` (bundled at the end of `db.test.js`) — the connection manager
  (`openDB`, `closeDB`);
* `model.js` — the `TestSchema` declaration (embedded from
  `src/unnamed/part_000`, the variant declaring `username`, `password`,
  `willBeCreated` and `willPass`, which is the schema the harness's
  `retrievedData.willPass` branch relies on).

The JavaScript runs on a single-threaded event loop: each record's
`save` callback runs to completion, possibly issuing a `findOne` whose
callback is delivered later, and after a fixed delay the timer callback
drops the database and calls `closeDB`.  The embedding fixes the
linearisation in which each record's save callback and subsequent
retrieval callback are delivered in dataset order, followed by the
timer; records in the fixed dataset use distinct usernames and do not
interact.  Every mutation of the shared `result` object and every
`expect` call is recorded as an explicit event, so that temporal claims
become statements about the event trace.
-/

namespace AsyncJest

/-- The kinds of `expect` assertions the harness executes:
`expect(error).toBeNull()`, `expect(error).not.toBeNull()`,
`expect(retrievedData).not.toBeNull()`, `expect(...).toEqual(...)`,
`expect(...).not.toEqual(...)`. -/
inductive Assertion where
  | errIsNull
  | errNotNull
  | retrievedNotNull
  | deepEqual
  | deepNotEqual
deriving DecidableEq, Repr

/-- A document / candidate record.  The field universe covers every
property occurring in the program: the schema fields `username`,
`password`, `willBeCreated`, `willPass`; the non-conforming inputs
`user` and `prop` from the fixed dataset; and the store-generated
`_id` (`oid`) and `__v` (`ver`).  `none` models an absent property
(JavaScript `undefined`). -/
structure Doc where
  username : Option String
  password : Option String
  willBeCreated : Option Bool
  willPass : Option Bool
  user : Option String
  prop : Option String
  oid : Option Nat
  ver : Option Nat
deriving DecidableEq, Repr

/-- JavaScript truthiness of a possibly-absent boolean property:
`undefined` and `false` are falsy, `true` is truthy. -/
def truthyB : Option Bool → Bool
  | some true => true
  | _ => false

/-- The error values that can be written into `result.error`:
the JavaScript `null` passed to a successful save callback, a mongoose
validation error for a rejected document, or a Jest assertion error
thrown by a failed `expect`. -/
inductive ErrVal where
  | vNull
  | validationErr (d : Doc)
  | assertionErr (k : Assertion)
deriving DecidableEq, Repr

/-- Observable events of one run, in event-loop order. -/
inductive Event where
  /-- An `expect` assertion of kind `k` executed; `pass` is whether it
  held (a failed assertion throws, and is caught by the attempt). -/
  | assert (k : Assertion) (pass : Bool)
  /-- An assignment `result.error = v`. -/
  | slotWrite (v : ErrVal)
  /-- `TestModel.findOne({ username }, callback)` issued. -/
  | findOneIssued (q : Option String)
  /-- `db.dropDatabase()` — erase all data in the working store. -/
  | dropDatabase
  /-- `db.close()` — close the connection. -/
  | connClose
  /-- `console.log` of the closed-connection notice. -/
  | noticeClosed
  /-- `done(error)` — the completion callback invoked with the value of
  `result.error` (`none` models `undefined`: the property never set). -/
  | doneCall (arg : Option ErrVal)
  /-- `console.log` of the notice after `done()` was called. -/
  | noticeDone
deriving DecidableEq, Repr

/-- Mutable state shared by all attempts: the working store's contents,
the `result.error` slot (`none` = property never assigned), and the
store's counter for generating fresh `_id`s. -/
structure RunState where
  store : List Doc
  slot : Option ErrVal
  nextId : Nat
deriving DecidableEq, Repr

/-! ## Schema (`src/unnamed/part_000`)

```
const TestSchema = new mongoose.Schema({
  username: { type: String, required: true },
  password: { type: String, required: true },
  willBeCreated: { type: Boolean, required: true },
  willPass: { type: Boolean, required: true }
})
```
-/

/-- Mongoose validation against `TestSchema`: all four required fields
must be present. -/
def schemaValidate (d : Doc) : Bool :=
  d.username.isSome && d.password.isSome &&
    d.willBeCreated.isSome && d.willPass.isSome

/-- The persisted form of an accepted document: the declared schema
fields are kept, non-declared fields (`user`, `prop`) are removed, and
the store-generated `_id` and `__v` are added. -/
def savedForm (d : Doc) (oid : Nat) : Doc :=
  { username := d.username
    password := d.password
    willBeCreated := d.willBeCreated
    willPass := d.willPass
    user := none
    prop := none
    oid := some oid
    ver := some 0 }

/-- The error argument `testDoc.save` delivers to its callback:
`null` when validation succeeds, a validation error otherwise. -/
def saveError (d : Doc) : ErrVal :=
  if schemaValidate d then .vNull else .validationErr d

/-- Models `testDoc.save(...)`: on success the persisted form is appended to
the store and the callback receives `null`; on failure nothing is
stored and the callback receives the validation error. -/
def doSave (d : Doc) (s : RunState) : ErrVal × RunState :=
  if schemaValidate d then
    (.vNull,
     { s with store := s.store ++ [savedForm d s.nextId], nextId := s.nextId + 1 })
  else
    (.validationErr d, s)

/-- Models `TestModel.findOne({ username }, callback)`: the first stored
document whose `username` matches, or `null`. -/
def findOne (store : List Doc) (q : Option String) : Option Doc :=
  store.find? fun doc => decide (doc.username = q)

/-- Models `delete retrievedData._id; delete retrievedData.__v`. -/
def strip (d : Doc) : Doc :=
  { d with oid := none, ver := none }

/-! ## The save callback (`db.test.js` lines 94–123)

```
testDoc.save((error, doc) => {
  try {
    if (expectedData.willBeCreated) {
      expect(error).toBeNull()
      ...
      TestModel.findOne(query, callback).lean()
    } else {
      expect(error).not.toBeNull()
    }
  } catch { error } {
    result.error = error
  }
})
```

Note the bindingless `catch { error }`: its block merely evaluates the
outer `error` parameter, and `{ result.error = error }` is a separate
block statement that runs unconditionally after the try/catch,
assigning the *save* error argument — not any caught assertion
error — to `result.error`. -/

/-- The save callback for expected data `expected`, error argument `e`.
Returns the emitted events, the updated state, and the `findOne` query
when a retrieval was issued. -/
def saveCallback (expected : Doc) (e : ErrVal) (s : RunState) :
    List Event × RunState × Option (Option String) :=
  let tryOut : List Event × Option (Option String) :=
    if truthyB expected.willBeCreated then
      if e = .vNull then
        ([.assert .errIsNull true, .findOneIssued expected.username],
         some expected.username)
      else
        -- `expect(error).toBeNull()` throws; caught by the bindingless
        -- catch; the `findOne` is never reached
        ([.assert .errIsNull false], none)
    else
      if e ≠ .vNull then
        ([.assert .errNotNull true], none)
      else
        ([.assert .errNotNull false], none)
  -- the standalone block after the try/catch: always `result.error = error`
  (tryOut.1 ++ [.slotWrite e], { s with slot := some e }, tryOut.2)

/-- One record's save attempt: `testDoc.save` followed by its callback. -/
def saveAttempt (d : Doc) (s : RunState) :
    List Event × RunState × Option (Option String) :=
  saveCallback d (doSave d s).1 (doSave d s).2

/-! ## The retrieval callback (`db.test.js` lines 128–154) -/

/-- The `findOne` callback for expected data `expected`, error argument
`e` (always `null` in practice — "Not tested. How would this happen?")
and retrieved document `r`. -/
def retrievalCallback (expected : Doc) (e : Option ErrVal) (r : Option Doc)
    (s : RunState) : List Event × RunState :=
  match e with
  | some err =>
    -- `if (error) { result.error = error; return }`
    ([.slotWrite err], { s with slot := some err })
  | none =>
    match r with
    | none =>
      -- `expect(retrievedData).not.toBeNull()` throws; caught, recorded
      ([.assert .retrievedNotNull false,
        .slotWrite (.assertionErr .retrievedNotNull)],
       { s with slot := some (.assertionErr .retrievedNotNull) })
    | some doc =>
      let stripped := strip doc
      if truthyB stripped.willPass then
        if stripped = expected then
          ([.assert .retrievedNotNull true, .assert .deepEqual true], s)
        else
          ([.assert .retrievedNotNull true, .assert .deepEqual false,
            .slotWrite (.assertionErr .deepEqual)],
           { s with slot := some (.assertionErr .deepEqual) })
      else
        if stripped ≠ expected then
          ([.assert .retrievedNotNull true, .assert .deepNotEqual true], s)
        else
          ([.assert .retrievedNotNull true, .assert .deepNotEqual false,
            .slotWrite (.assertionErr .deepNotEqual)],
           { s with slot := some (.assertionErr .deepNotEqual) })

/-- One record's complete attempt: the save, its callback, and (when a
`findOne` was issued) the retrieval and its callback. -/
def processRecord (d : Doc) (s : RunState) : List Event × RunState :=
  let a := saveAttempt d s
  match a.2.2 with
  | none => (a.1, a.2.1)
  | some q =>
    let b := retrievalCallback d none (findOne a.2.1.store q) a.2.1
    (a.1 ++ b.1, b.2)

/-- Models `testData.forEach(...)`: all records' attempts, in dataset order. -/
def runAttempts (data : List Doc) (s : RunState) : List Event × RunState :=
  match data with
  | [] => ([], s)
  | d :: rest =>
    let a := processRecord d s
    let b := runAttempts rest a.2
    (a.1 ++ b.1, b.2)

/-! ## The connection manager (`db.js`, bundled in `db.test.js`) -/

/-- Connection lifecycle states. -/
inductive ConnState where
  | connecting
  | opened
  | closed
deriving DecidableEq, Repr

/-- The `options` object `closeDB` receives, after destructuring:
`silent` (possibly absent), whether `done` is a function, and the
`error` property (`none` = never assigned). -/
structure Outcome where
  silent : Option Bool
  hasDone : Bool
  error : Option ErrVal
deriving DecidableEq, Repr

/-- The JavaScript `typeof` classes a `closeDB` argument can fall into:
`null` (whose `typeof` is `"object"`), a value of a primitive `typeof`
class, or an object. -/
inductive PrimTy where
  | undefT
  | boolT
  | numT
  | strT
  | funT
  | symT
deriving DecidableEq, Repr

/-- A `closeDB` argument. -/
inductive CloseArg where
  | jnull
  | prim (t : PrimTy)
  | outcome (o : Outcome)
deriving DecidableEq, Repr

/-- Models `typeof options === "object"`. -/
def typeofIsObject : CloseArg → Bool
  | .jnull => true
  | .outcome _ => true
  | .prim _ => false

/-- Models `const { silent, done, error } = options`: destructuring `null`
throws a `TypeError`; destructuring any other non-object yields
`undefined` for every property. -/
def destructure : CloseArg → Except String Outcome
  | .jnull => .error "TypeError: cannot destructure null"
  | .prim _ => .ok { silent := none, hasDone := false, error := none }
  | .outcome o => .ok o

/-- The events `closeDB` emits for destructured options `o`:
`db.close()`, the closed-connection notice unless silent, and — when
`done` is a function — `done(error)` followed by a second notice
unless silent. -/
def closeEvents (o : Outcome) : List Event :=
  .connClose ::
    ((if truthyB o.silent then [] else [.noticeClosed]) ++
      (if o.hasDone then
        .doneCall o.error ::
          (if truthyB o.silent then [] else [.noticeDone])
      else []))

/-- Models `result.closeDB = (options) => { ... }` from `db.js`.  The
connection state is threaded to record that `db.close()` moves any
state to `closed`; the function body never consults it. -/
def closeDB (_st : ConnState) (arg : CloseArg) :
    Except String (ConnState × List Event) := do
  let options := if typeofIsObject arg then arg
    else .outcome { silent := none, hasDone := false, error := none }
  let o ← destructure options
  return (.closed, closeEvents o)

/-- The body of the `setTimeout` in `setTimeoutToCloseConnection`:
`db.dropDatabase().then(() => closeDB(result))`. -/
def teardownOf (st : ConnState) (s : RunState) (o : Outcome) :
    Except String (List Event × RunState × ConnState) := do
  let s1 : RunState := { s with store := [] }
  let p ← closeDB st (.outcome o)
  return (.dropDatabase :: p.2, s1, p.1)

/-! ## The whole run (`testModel`) -/

/-- One complete run of `testModel` over dataset `data`, starting from
store contents `store0`: all attempts, then the timer fires and tears
down.  The outcome object is `result = { done, silent: false }` with
`result.error` holding whatever the attempts left in the slot. -/
def runHarness (data : List Doc) (store0 : List Doc) :
    Except String (List Event × RunState × ConnState) := do
  let s0 : RunState := { store := store0, slot := none, nextId := 0 }
  let a := runAttempts data s0
  let o : Outcome := { silent := some false, hasDone := true, error := a.2.slot }
  let p ← teardownOf .opened a.2 o
  return (a.1 ++ p.1, p.2.1, p.2.2)

/-- The event trace of a run (empty only if the run failed, which it
never does). -/
def runTrace (data : List Doc) (store0 : List Doc) : List Event :=
  match runHarness data store0 with
  | .ok (evts, _, _) => evts
  | .error _ => []

/-- The final store contents a run leaves behind. -/
def finalStore (data : List Doc) (store0 : List Doc) : List Doc :=
  match runHarness data store0 with
  | .ok (_, s, _) => s.store
  | .error _ => []

/-! ## Trace observations -/

/-- The sequence of values assigned to `result.error` during a trace. -/
def slotWritesOf (evts : List Event) : List ErrVal :=
  evts.filterMap fun e =>
    match e with
    | .slotWrite v => some v
    | _ => none

/-- The arguments of the `done(...)` calls in a trace. -/
def doneArgsOf (evts : List Event) : List (Option ErrVal) :=
  evts.filterMap fun e =>
    match e with
    | .doneCall a => some a
    | _ => none

/-- Events that an attempt (save/retrieval callback) can emit — none of
the teardown events are among them. -/
def isAttemptEvent : Event → Bool
  | .assert _ _ => true
  | .slotWrite _ => true
  | .findOneIssued _ => true
  | _ => false

/-! ## The fixed dataset (`db.test.js` lines 30–53) -/

/-- The fixed dataset `testData`. -/
def testData : List Doc :=
  [{ username := some "username", password := some "password",
     willBeCreated := some true, willPass := some true,
     user := none, prop := none, oid := none, ver := none },
   { username := none, password := some "password",
     willBeCreated := some false, willPass := some false,
     user := some "user", prop := none, oid := none, ver := none },
   { username := some "with-added-prop", password := some "password",
     willBeCreated := some true, willPass := some false,
     user := none, prop := some "value", oid := none, ver := none }]

/-- Models `Number(willBeCreated)` as used in `2 * data.willBeCreated`:
booleans coerce to `0`/`1`; an absent property would give `NaN`,
modelled as `none`. -/
def jsNumOfBool (b : Option Bool) : Option Nat :=
  b.map fun x => cond x 1 0

/-- One step of the reduce: `count + 1 + (2 * data.willBeCreated)`;
`none` models the `NaN` that a record with no boolean `willBeCreated`
would propagate. -/
def assertionStep (count : Option Nat) (d : Doc) : Option Nat :=
  match count, jsNumOfBool d.willBeCreated with
  | some c, some n => some (c + 1 + 2 * n)
  | _, _ => none

/-- Models `testData.reduce((count, data) => count + 1 + (2 * data.willBeCreated), 0)`
(`db.test.js` lines 73–75). -/
def assertionCount (data : List Doc) : Option Nat :=
  data.foldl assertionStep (some 0)

/-! ## Concrete documents used in the theorems below -/

/-- An invalid record (no `username`) marked `willBeCreated`, so its
save callback records a validation error through the unconditional
`result.error = error` block. -/
def cexA : Doc :=
  { username := none, password := some "p", willBeCreated := some true,
    willPass := some true, user := none, prop := none, oid := none, ver := none }

/-- A second such invalid record, carrying a different password so its
validation error differs from that of `cexA`. -/
def cexB : Doc :=
  { username := none, password := some "q", willBeCreated := some true,
    willPass := some true, user := none, prop := none, oid := none, ver := none }

/-- A schema-valid record marked `willBeCreated: false`: its save
succeeds, so `expect(error).not.toBeNull()` throws an assertion error
inside the save callback. -/
def bugDoc : Doc :=
  { username := some "u", password := some "p", willBeCreated := some false,
    willPass := some false, user := none, prop := none, oid := none, ver := none }

/-- The first record of `testData`: schema-valid, accepted. -/
def okDoc : Doc :=
  { username := some "username", password := some "password",
    willBeCreated := some true, willPass := some true,
    user := none, prop := none, oid := none, ver := none }

/-- A run state in which a sibling attempt has already recorded an
assertion failure in `result.error`. -/
def prevFailState : RunState :=
  { store := [], slot := some (.assertionErr .deepEqual), nextId := 0 }

/-- The third record of `testData`: accepted, with an extra `prop`
field, marked `willPass: false`. -/
def extraPropDoc : Doc :=
  { username := some "with-added-prop", password := some "password",
    willBeCreated := some true, willPass := some false,
    user := none, prop := some "value", oid := none, ver := none }


/-! ## Slot-tracking infrastructure -/

/-- One step of replaying the `result.error` assignments of a trace. -/
def stepSlot (acc : Option ErrVal) : Event → Option ErrVal
  | .slotWrite v => some v
  | _ => acc

/-- The value `result.error` holds after a trace, starting from `init`. -/
def foldSlot (evts : List Event) (init : Option ErrVal) : Option ErrVal :=
  evts.foldl stepSlot init

theorem foldSlot_append (a b : List Event) (init : Option ErrVal) :
    foldSlot (a ++ b) init = foldSlot b (foldSlot a init) := by
  simp [foldSlot, List.foldl_append]

theorem foldSlot_concat_write (l : List Event) (v : ErrVal) (init : Option ErrVal) :
    foldSlot (l ++ [.slotWrite v]) init = some v := by
  rw [foldSlot_append]; rfl

theorem doSave_fst (d : Doc) (s : RunState) : (doSave d s).1 = saveError d := by
  by_cases h : schemaValidate d <;> simp [doSave, saveError, h]

theorem saveAttempt_state_slot (d : Doc) (s : RunState) :
    (saveAttempt d s).2.1.slot = some (saveError d) := by
  simp [saveAttempt, saveCallback, doSave_fst]

theorem foldSlot_saveAttempt (d : Doc) (s : RunState) (init : Option ErrVal) :
    foldSlot (saveAttempt d s).1 init = some (saveError d) := by
  simp [saveAttempt, saveCallback, foldSlot_concat_write, doSave_fst]

theorem retrievalCallback_slot (d : Doc) (e : Option ErrVal) (r : Option Doc)
    (s : RunState) :
    (retrievalCallback d e r s).2.slot =
      foldSlot (retrievalCallback d e r s).1 s.slot := by
  unfold retrievalCallback
  rcases e with _ | err
  · rcases r with _ | doc
    · rfl
    · simp only []
      split
      · split
        · rfl
        · rfl
      · split
        · rfl
        · rfl
  · rfl

theorem processRecord_slot (d : Doc) (s : RunState) :
    (processRecord d s).2.slot = foldSlot (processRecord d s).1 s.slot := by
  unfold processRecord
  cases hq : (saveAttempt d s).2.2 with
  | none =>
    simp only [hq]
    rw [saveAttempt_state_slot, foldSlot_saveAttempt]
  | some q =>
    simp only [hq]
    rw [retrievalCallback_slot, foldSlot_append, foldSlot_saveAttempt,
      saveAttempt_state_slot]

theorem runAttempts_slot (data : List Doc) (s : RunState) :
    (runAttempts data s).2.slot = foldSlot (runAttempts data s).1 s.slot := by
  induction data generalizing s with
  | nil => rfl
  | cons d rest ih =>
    show (runAttempts rest (processRecord d s).2).2.slot =
      foldSlot ((processRecord d s).1 ++ (runAttempts rest (processRecord d s).2).1)
        s.slot
    rw [foldSlot_append, ← processRecord_slot, ih]

theorem saveAttempt_events (d : Doc) (s : RunState) :
    ∀ e ∈ (saveAttempt d s).1, isAttemptEvent e = true := by
  unfold saveAttempt saveCallback
  simp only []
  split
  · split <;> simp [isAttemptEvent]
  · split <;> simp [isAttemptEvent]

theorem retrievalCallback_events (d : Doc) (e : Option ErrVal) (r : Option Doc)
    (s : RunState) :
    ∀ x ∈ (retrievalCallback d e r s).1, isAttemptEvent x = true := by
  unfold retrievalCallback
  rcases e with _ | err
  · rcases r with _ | doc
    · simp [isAttemptEvent]
    · simp only []
      split
      · split <;> simp [isAttemptEvent]
      · split <;> simp [isAttemptEvent]
  · simp [isAttemptEvent]

theorem processRecord_events (d : Doc) (s : RunState) :
    ∀ e ∈ (processRecord d s).1, isAttemptEvent e = true := by
  unfold processRecord
  cases hq : (saveAttempt d s).2.2 with
  | none =>
    simp only [hq]
    exact saveAttempt_events d s
  | some q =>
    simp only [hq, List.mem_append]
    intro e he
    rcases he with he | he
    · exact saveAttempt_events d s e he
    · exact retrievalCallback_events d none _ _ e he

theorem runAttempts_events (data : List Doc) (s : RunState) :
    ∀ e ∈ (runAttempts data s).1, isAttemptEvent e = true := by
  induction data generalizing s with
  | nil => intro e he; simp [runAttempts] at he
  | cons d rest ih =>
    intro e he
    have : e ∈ (processRecord d s).1 ++ (runAttempts rest (processRecord d s).2).1 := he
    rcases List.mem_append.mp this with h | h
    · exact processRecord_events d s e h
    · exact ih _ e h

theorem doneArgsOf_of_attemptEvents (evts : List Event)
    (h : ∀ e ∈ evts, isAttemptEvent e = true) :
    doneArgsOf evts = [] := by
  rw [doneArgsOf, List.filterMap_eq_nil_iff]
  intro e he
  cases e <;> first | rfl | (exact absurd (h _ he) (by simp [isAttemptEvent]))

theorem foldl_lastWrite (l : List ErrVal) (init : Option ErrVal) :
    l.foldl (fun _ v => some v) init = l.getLast?.or init := by
  induction l generalizing init with
  | nil => rfl
  | cons v t ih =>
    rcases t with _ | ⟨b, u⟩
    · rfl
    · rw [List.foldl_cons, ih, List.getLast?_cons_cons]
      rcases h : (b :: u).getLast? with _ | w
      · exact absurd h (by simp)
      · rfl

theorem foldSlot_eq_lastWrite (evts : List Event) (init : Option ErrVal) :
    foldSlot evts init = (slotWritesOf evts).foldl (fun _ v => some v) init := by
  induction evts generalizing init with
  | nil => rfl
  | cons e t ih =>
    cases e <;> simp [foldSlot, slotWritesOf, stepSlot, List.foldl_cons] at ih ⊢ <;>
      exact ih _

theorem foldSlot_none_eq_getLast (evts : List Event) :
    foldSlot evts none = (slotWritesOf evts).getLast? := by
  rw [foldSlot_eq_lastWrite, foldl_lastWrite, Option.or_none]

/-! ## Run shape -/

/-- Every run succeeds and ends in the five teardown events: the
attempts, then `dropDatabase`, `db.close()`, the closed-connection
notice, `done` with the current slot value, and the final notice. -/
theorem runHarness_eq (data : List Doc) (store0 : List Doc) :
    runHarness data store0 =
      .ok ((runAttempts data { store := store0, slot := none, nextId := 0 }).1 ++
            [.dropDatabase, .connClose, .noticeClosed,
             .doneCall (runAttempts data { store := store0, slot := none, nextId := 0 }).2.slot,
             .noticeDone],
           { (runAttempts data { store := store0, slot := none, nextId := 0 }).2
              with store := [] },
           .closed) := rfl

theorem runTrace_eq (data : List Doc) (store0 : List Doc) :
    runTrace data store0 =
      (runAttempts data { store := store0, slot := none, nextId := 0 }).1 ++
        [.dropDatabase, .connClose, .noticeClosed,
         .doneCall (runAttempts data { store := store0, slot := none, nextId := 0 }).2.slot,
         .noticeDone] := rfl

theorem doneArgsOf_append (a b : List Event) :
    doneArgsOf (a ++ b) = doneArgsOf a ++ doneArgsOf b := by
  simp [doneArgsOf]

theorem slotWritesOf_append (a b : List Event) :
    slotWritesOf (a ++ b) = slotWritesOf a ++ slotWritesOf b := by
  simp [slotWritesOf]

theorem doneArgsOf_teardownTail (x : Option ErrVal) :
    doneArgsOf [.dropDatabase, .connClose, .noticeClosed, .doneCall x, .noticeDone] =
      [x] := rfl

theorem slotWritesOf_teardownTail (x : Option ErrVal) :
    slotWritesOf [.dropDatabase, .connClose, .noticeClosed, .doneCall x, .noticeDone] =
      [] := rfl

/-- The events the retrieval callback emits when a record is retrieved:
the presence check, then the equality or inequality assertion chosen by
the retrieved record's `willPass`, with a slot write on failure. -/
theorem retrievalCallback_some_events (expected doc : Doc) (s : RunState) :
    (retrievalCallback expected none (some doc) s).1 =
      .assert .retrievedNotNull true ::
        (if truthyB (strip doc).willPass then
          (if strip doc = expected then [.assert .deepEqual true]
           else [.assert .deepEqual false, .slotWrite (.assertionErr .deepEqual)])
         else
          (if strip doc ≠ expected then [.assert .deepNotEqual true]
           else [.assert .deepNotEqual false,
                 .slotWrite (.assertionErr .deepNotEqual)])) := by
  unfold retrievalCallback
  simp only []
  split
  · split <;> simp_all
  · split <;> simp_all

/-! ## The claims -/

/-- C1 (counterexample): with two invalid `willBeCreated` records, two
attempts record distinct errors, and the error delivered at completion
is the second one recorded, not the first — the slot does not have
first-write-wins semantics. -/
theorem firstWriteWins_counterexample :
    (slotWritesOf (runTrace [cexA, cexB] [])).head? =
        some (.validationErr cexA)
    ∧ doneArgsOf (runTrace [cexA, cexB] []) = [some (.validationErr cexB)]
    ∧ ErrVal.validationErr cexA ≠ ErrVal.validationErr cexB := by
  refine ⟨rfl, rfl, by decide⟩

/-- C1 (amended): the error slot has last-write-wins semantics — every
assignment overwrites the previous value, and the error delivered to
the completion callback is the last value written to `result.error`
during the run (`none`, that is `undefined`, if nothing was written). -/
theorem errorSlot_lastWriteWins (data store0 : List Doc) :
    doneArgsOf (runTrace data store0) =
      [(slotWritesOf (runTrace data store0)).getLast?] := by
  have hA := runAttempts_slot data { store := store0, slot := none, nextId := 0 }
  have h1 : doneArgsOf
      (runAttempts data { store := store0, slot := none, nextId := 0 }).1 = [] :=
    doneArgsOf_of_attemptEvents _
      (runAttempts_events data { store := store0, slot := none, nextId := 0 })
  rw [runTrace_eq, doneArgsOf_append, slotWritesOf_append,
    doneArgsOf_teardownTail, slotWritesOf_teardownTail, h1,
    List.append_nil, List.nil_append, hA, foldSlot_none_eq_getLast]

/-- C2 (failing input): for the schema-valid record `bugDoc` marked
`willBeCreated: false`, the save succeeds, the accept/reject assertion
fails inside the save callback, the thrown assertion error is caught —
but what reaches `result.error` is the save callback's `error`
argument (`null`), not the assertion error: the bindingless
`catch { error }` block discards the caught value. -/
theorem save_assertionError_discarded :
    processRecord bugDoc { store := [], slot := none, nextId := 0 } =
      ([.assert .errNotNull false, .slotWrite .vNull],
       { store := [{ username := some "u", password := some "p",
                     willBeCreated := some false, willPass := some false,
                     user := none, prop := none, oid := some 0, ver := some 0 }],
         slot := some .vNull, nextId := 1 }) := rfl

/-- C3: teardown performs, in order: erase all data, close the
connection, the closed-connection notice unless quiet, then — when the
completion callback is callable — `done` with the outcome's recorded
error (or `undefined`), followed by a second notice unless quiet. -/
theorem teardown_step_order (st : ConnState) (s : RunState) (o : Outcome) :
    (truthyB o.silent = false → o.hasDone = true →
      teardownOf st s o =
        .ok ([.dropDatabase, .connClose, .noticeClosed, .doneCall o.error,
              .noticeDone],
             { s with store := [] }, .closed))
    ∧ (truthyB o.silent = false → o.hasDone = false →
      teardownOf st s o =
        .ok ([.dropDatabase, .connClose, .noticeClosed],
             { s with store := [] }, .closed))
    ∧ (truthyB o.silent = true → o.hasDone = true →
      teardownOf st s o =
        .ok ([.dropDatabase, .connClose, .doneCall o.error],
             { s with store := [] }, .closed))
    ∧ (truthyB o.silent = true → o.hasDone = false →
      teardownOf st s o =
        .ok ([.dropDatabase, .connClose], { s with store := [] }, .closed)) := by
  refine ⟨fun h1 h2 => ?_, fun h1 h2 => ?_, fun h1 h2 => ?_, fun h1 h2 => ?_⟩ <;>
    simp [teardownOf, closeDB, destructure, closeEvents, typeofIsObject,
      h1, h2]

theorem teardown_step_order_witness :
    truthyB (some false) = false
    ∧ teardownOf .opened { store := testData, slot := none, nextId := 0 }
        { silent := some false, hasDone := true, error := some .vNull } =
      .ok ([.dropDatabase, .connClose, .noticeClosed,
            .doneCall (some .vNull), .noticeDone],
           { store := [], slot := none, nextId := 0 }, .closed) :=
  ⟨rfl,
    (teardown_step_order .opened { store := testData, slot := none, nextId := 0 }
      { silent := some false, hasDone := true, error := some .vNull }).1 rfl rfl⟩

/-- C4: in every run the trace ends with teardown, the completion
callback is invoked exactly once, only after the store wipe and the
connection close, and its argument is the value the slot holds at that
moment — the last value written, `none` (absent) when nothing was
recorded.  All earlier events are attempt events, so no error ends the
run before teardown executes. -/
theorem completion_callback_once (data store0 : List Doc) :
    ∃ (pre : List Event) (s1 : RunState),
      runHarness data store0 =
        .ok (pre ++ [.dropDatabase, .connClose, .noticeClosed,
                     .doneCall s1.slot, .noticeDone],
             { s1 with store := [] }, .closed)
      ∧ (∀ e ∈ pre, isAttemptEvent e = true)
      ∧ doneArgsOf (runTrace data store0) = [s1.slot]
      ∧ s1.slot = (slotWritesOf pre).getLast?
      ∧ (slotWritesOf pre = [] → s1.slot = none) := by
  refine ⟨(runAttempts data { store := store0, slot := none, nextId := 0 }).1,
    (runAttempts data { store := store0, slot := none, nextId := 0 }).2,
    runHarness_eq data store0,
    runAttempts_events data { store := store0, slot := none, nextId := 0 },
    ?_, ?_, ?_⟩
  · rw [runTrace_eq, doneArgsOf_append, doneArgsOf_teardownTail,
      doneArgsOf_of_attemptEvents _
        (runAttempts_events data { store := store0, slot := none, nextId := 0 }),
      List.nil_append]
  · rw [runAttempts_slot data { store := store0, slot := none, nextId := 0 },
      foldSlot_none_eq_getLast]
  · intro h
    rw [runAttempts_slot data { store := store0, slot := none, nextId := 0 },
      foldSlot_none_eq_getLast, h]
    rfl

theorem completion_callback_once_witness :
    ∃ (pre : List Event) (s1 : RunState),
      runHarness testData [] =
        .ok (pre ++ [.dropDatabase, .connClose, .noticeClosed,
                     .doneCall s1.slot, .noticeDone],
             { s1 with store := [] }, .closed)
      ∧ (∀ e ∈ pre, isAttemptEvent e = true)
      ∧ doneArgsOf (runTrace testData []) = [s1.slot]
      ∧ s1.slot = (slotWritesOf pre).getLast?
      ∧ (slotWritesOf pre = [] → s1.slot = none) :=
  completion_callback_once testData []

/-- C5: when every record carries a boolean `willBeCreated`, the
precomputed expected-assertion count is one per record plus two more
for each record whose `willBeCreated` is `true`. -/
theorem assertionCount_correct (data : List Doc)
    (h : ∀ d ∈ data, d.willBeCreated.isSome = true) :
    assertionCount data =
      some (data.length +
        2 * data.countP (fun d => decide (d.willBeCreated = some true))) := by
  have aux : ∀ (l : List Doc) (c : Nat),
      (∀ d ∈ l, d.willBeCreated.isSome = true) →
      l.foldl assertionStep (some c) =
        some (c + l.length +
          2 * l.countP (fun d => decide (d.willBeCreated = some true))) := by
    intro l
    induction l with
    | nil => intro c h0; simp
    | cons d t ih =>
      intro c h0
      obtain ⟨b, hb⟩ := Option.isSome_iff_exists.mp (h0 d (by simp))
      have hstep : assertionStep (some c) d = some (c + 1 + 2 * cond b 1 0) := by
        simp [assertionStep, jsNumOfBool, hb]
      rw [List.foldl_cons, hstep, ih _ (fun x hx => h0 x (List.mem_cons_of_mem d hx)),
        List.countP_cons]
      cases b <;> simp [hb] <;> omega
  have h0 := aux data 0 h
  rw [assertionCount, h0, Nat.zero_add]

theorem assertionCount_correct_witness :
    (∀ d ∈ testData, d.willBeCreated.isSome = true)
    ∧ assertionCount testData =
        some (testData.length +
          2 * testData.countP (fun d => decide (d.willBeCreated = some true)))
    ∧ assertionCount testData = some 7 :=
  ⟨by decide, assertionCount_correct testData (by decide), by decide⟩

/-- C6: for an accepted record whose retrieval yields its persisted
form, the callback runs the deep-equality assertion against the
original input, after stripping the store-generated fields, exactly
when the record's `willPass` is `true`, and the inequality assertion
exactly when it is `false`. -/
theorem retrieval_dispatch_by_willPass (d : Doc) (oid : Nat) (s : RunState)
    (h : schemaValidate d = true) :
    (d.willPass = some true ∨ d.willPass = some false)
    ∧ (d.willPass = some true →
        Event.assert .deepEqual (decide (strip (savedForm d oid) = d)) ∈
            (retrievalCallback d none (some (savedForm d oid)) s).1
          ∧ ∀ b, Event.assert .deepNotEqual b ∉
              (retrievalCallback d none (some (savedForm d oid)) s).1)
    ∧ (d.willPass = some false →
        Event.assert .deepNotEqual (decide (¬ strip (savedForm d oid) = d)) ∈
            (retrievalCallback d none (some (savedForm d oid)) s).1
          ∧ ∀ b, Event.assert .deepEqual b ∉
              (retrievalCallback d none (some (savedForm d oid)) s).1) := by
  have hwp : (strip (savedForm d oid)).willPass = d.willPass := rfl
  refine ⟨?_, ?_, ?_⟩
  · simp only [schemaValidate, Bool.and_eq_true] at h
    obtain ⟨b, hb⟩ := Option.isSome_iff_exists.mp h.2
    cases b
    · exact Or.inr hb
    · exact Or.inl hb
  · intro hw
    rw [retrievalCallback_some_events, hwp] at *
    rw [hw]
    by_cases he : strip (savedForm d oid) = d <;>
      simp [he, truthyB, hw]
  · intro hw
    rw [retrievalCallback_some_events, hwp] at *
    rw [hw]
    by_cases he : strip (savedForm d oid) = d <;>
      simp [he, truthyB, hw]

theorem retrieval_dispatch_by_willPass_witness :
    schemaValidate extraPropDoc = true
    ∧ extraPropDoc.willPass = some false
    ∧ (Event.assert .deepNotEqual
          (decide (¬ strip (savedForm extraPropDoc 0) = extraPropDoc)) ∈
        (retrievalCallback extraPropDoc none (some (savedForm extraPropDoc 0))
          { store := [], slot := none, nextId := 0 }).1
      ∧ ∀ b, Event.assert .deepEqual b ∉
          (retrievalCallback extraPropDoc none (some (savedForm extraPropDoc 0))
            { store := [], slot := none, nextId := 0 }).1) :=
  ⟨by decide, rfl,
    (retrieval_dispatch_by_willPass extraPropDoc 0
      { store := [], slot := none, nextId := 0 } (by decide)).2.2 rfl⟩

/-- C7 (counterexample): invoking `closeDB` while the connection is
still in the `connecting` state does not fail fast — it proceeds
normally, closing the connection, logging, and invoking the completion
callback, exactly as it would after open. -/
theorem closeDB_before_open_counterexample :
    closeDB .connecting
        (.outcome { silent := some false, hasDone := true, error := none }) =
      .ok (.closed, [.connClose, .noticeClosed, .doneCall none, .noticeDone]) :=
  rfl

/-- C7 (amended): `closeDB` performs no connection-state check at all:
called with an options object in any connection state it succeeds and
behaves exactly as in the open state.  (It is, however, only exposed
through the `openDB` promise, which resolves once the connection
opens.) -/
theorem closeDB_ignores_connState (st : ConnState) (o : Outcome) :
    closeDB st (.outcome o) = closeDB .opened (.outcome o)
    ∧ closeDB st (.outcome o) = .ok (.closed, closeEvents o) :=
  ⟨rfl, rfl⟩

/-- C8: a run leaves the store freshly wiped, so a second run starting
from the store the first run left behind is the very same computation
as the first run and delivers the identical completion value. -/
theorem harness_idempotent (data : List Doc) :
    finalStore data [] = []
    ∧ runHarness data (finalStore data []) = runHarness data []
    ∧ doneArgsOf (runTrace data (finalStore data [])) =
        doneArgsOf (runTrace data []) := by
  have h : finalStore data [] = [] := by
    rw [finalStore, runHarness_eq]
  exact ⟨h, by rw [h], by rw [h]⟩

/-- C9: the standalone block after the try/catch in every save callback
unconditionally assigns the save operation's error argument to
`result.error`: the slot ends as the save error whatever it held
before, the last event of the save attempt is that write, a successful
save writes `null`, and a correctly rejected record writes its
validation error without any assertion having failed. -/
theorem saveError_always_assigned (s : RunState) (d : Doc) :
    (saveAttempt d s).2.1.slot = some (saveError d)
    ∧ (saveAttempt d s).1.getLast? = some (.slotWrite (saveError d))
    ∧ (schemaValidate d = true → saveError d = .vNull)
    ∧ (schemaValidate d = false → truthyB d.willBeCreated = false →
        saveError d = .validationErr d
        ∧ ∀ k, Event.assert k false ∉ (saveAttempt d s).1) := by
  refine ⟨saveAttempt_state_slot d s, ?_, ?_, ?_⟩
  · simp [saveAttempt, saveCallback, doSave_fst, List.getLast?_concat]
  · intro h
    simp [saveError, h]
  · intro h1 h2
    refine ⟨by simp [saveError, h1], ?_⟩
    intro k
    simp [saveAttempt, saveCallback, doSave, h1, h2]

theorem saveError_always_assigned_witness :
    schemaValidate okDoc = true
    ∧ (saveAttempt okDoc prevFailState).2.1.slot = some (saveError okDoc) :=
  ⟨by decide, (saveError_always_assigned prevFailState okDoc).1⟩

/-- C10: called with an argument of non-object type, `closeDB` does not
throw: the argument is wrapped, `silent`, `done` and `error`
destructure to `undefined`, the connection is closed, the
closed-connection notice is emitted, and no completion callback runs. -/
theorem closeDB_nonObject_safe (st : ConnState) (t : PrimTy) :
    typeofIsObject (.prim t) = false
    ∧ closeDB st (.prim t) = .ok (.closed, [.connClose, .noticeClosed])
    ∧ closeDB st (.prim t) =
        closeDB st (.outcome { silent := none, hasDone := false, error := none }) :=
  ⟨rfl, rfl, rfl⟩

end AsyncJest
